import Mathlib

/-!
Verification development for the DynamicObjectPooler plugin
(`ObjectPoolingComponent.cpp` / `ObjectPoolingComponent.h`).

The component is embedded shallowly: engine actors are identified by
natural numbers, their engine-side flags are an `ActorProps` record held
in a registry list, and the component state (`PoolState`) carries the
`Pool` array, the configuration flags, the statistics counters and the
observer-event logs.  Host-runtime capabilities (spawn success, world
validity, asset-load success, authority) are environment booleans read
by the operations exactly where the C++ reads the corresponding engine
calls.  Every operation below is a direct translation of the function of
the same name in `ObjectPoolingComponent.cpp`.
-/

namespace DynamicObjectPooler

/-- A world location; only the origin and caller transforms matter. -/
structure Vec3 where
  x : Int
  y : Int
  z : Int
deriving DecidableEq, Repr

def zeroVec : Vec3 := ⟨0, 0, 0⟩

/-- Engine-side per-actor flags touched by the component.
`lifeSpan = 0` means no engine lifespan is pending (UE convention). -/
structure ActorProps where
  hiddenInGame : Bool
  collisionEnabled : Bool
  tickEnabled : Bool
  location : Vec3
  replicates : Bool
  replicateMovement : Bool
  lifeSpan : Nat
  onDestroyedBound : Bool
deriving DecidableEq, Repr

/-- State of the pooling component together with the engine registry of
live actors and the environment capabilities it consults. -/
structure PoolState where
  /- engine registry: live actors keyed by id (newest first) -/
  actors : List (Nat × ActorProps)
  nextId : Nat
  /- the replicated `Pool` array of actor references (may dangle) -/
  pool : List Nat
  /- `PooledObjectClass` is a valid class -/
  pooledObjectClassSet : Bool
  /- `SoftPooledObjectClass.IsValid()` -/
  softClassValid : Bool
  /- whether a requested soft-class load yields a valid class -/
  softLoadSucceeds : Bool
  /- `PoolSize` property -/
  poolSizeCfg : Int
  /- `InitialPoolSize` property (async path, default 10) -/
  initialPoolSize : Nat
  bAutoExpand : Bool
  /- `ActorLifespan` property (abstracted to a Nat; only set/unset matters) -/
  actorLifespan : Nat
  /- `GetOwner()->HasAuthority()` -/
  hasAuthority : Bool
  /- `GetWorld()` / `IsValid(World)` -/
  worldValid : Bool
  /- whether the host `SpawnActor` primitive succeeds -/
  spawnSucceeds : Bool
  /- whether the pooled class implements `UPooledActorInterface` -/
  classImplementsReset : Bool
  /- `InitialSpawnTransform` property -/
  initialSpawnTransform : Vec3
  /- an async load of the soft class has been requested and not completed -/
  pendingClassLoad : Bool
  /- game-thread allocation tasks enqueued by `SpawnPooledActorAsync` -/
  pendingAsync : List Vec3
  /- statistics counters (int32 in the source; overflow is irrelevant here) -/
  totalObjectsCreated : Int
  activeObjects : Int
  inactiveObjects : Int
  totalSpawnRequests : Int
  totalReturnRequests : Int
  totalPoolExpansions : Int
  peakUsage : Int
  /- observer-event logs: `OnPooledActorSpawned`, `OnPooledActorReturned`,
     `ResetPooledActor` calls, `OnPoolInitialized` broadcasts -/
  spawnedEvents : List Nat
  returnedEvents : List Nat
  resetEvents : List Nat
  initializedEvents : Nat
deriving DecidableEq, Repr

/-- Registry lookup: first entry with the given id. -/
def lookupActor : List (Nat × ActorProps) → Nat → Option ActorProps
  | [], _ => none
  | p :: rest, a => if p.1 = a then some p.2 else lookupActor rest a

/-- Embeds `IsValid(Actor)`: the reference denotes a live engine actor. -/
def isValidActor (s : PoolState) (a : Nat) : Bool :=
  (lookupActor s.actors a).isSome

/-- Embeds `Actor->IsHidden()` (false for a dead reference; the source always
guards this call with `IsValid`). -/
def isHiddenActor (s : PoolState) (a : Nat) : Bool :=
  match lookupActor s.actors a with
  | some p => p.hiddenInGame
  | none => false

/-- Apply an engine-flag update to the actor with the given id. -/
def updateActor (s : PoolState) (a : Nat) (f : ActorProps → ActorProps) : PoolState :=
  { s with actors := s.actors.map (fun p => if p.1 = a then (p.1, f p.2) else p) }

/-- Flags of a freshly spawned engine actor, before the component
configures it. -/
def freshActorProps (loc : Vec3) : ActorProps :=
  { hiddenInGame := false, collisionEnabled := true, tickEnabled := true,
    location := loc, replicates := false, replicateMovement := false,
    lifeSpan := 0, onDestroyedBound := false }

/-- Embeds `World->SpawnActor<AActor>(class, transform)`: allocates a fresh id
when the host primitive succeeds, returns null otherwise. -/
def spawnActor (s : PoolState) (loc : Vec3) : Option (Nat × PoolState) :=
  if s.spawnSucceeds then
    some (s.nextId,
      { s with actors := (s.nextId, freshActorProps loc) :: s.actors,
               nextId := s.nextId + 1 })
  else none

/-- Embeds `UObjectPoolingComponent::ExpandPool` (lines 268-297). -/
def ExpandPool (s : PoolState) : PoolState :=
  -- if (!IsServer() || !GetWorld() || !PooledObjectClass) return;
  if !s.hasAuthority || !s.worldValid || !s.pooledObjectClassSet then s
  else
    match spawnActor s zeroVec with
    | none => s  -- log error, counters unchanged
    | some (id, s1) =>
      let s2 := updateActor s1 id (fun p =>
        { p with hiddenInGame := true, collisionEnabled := false,
                 tickEnabled := false, replicates := true,
                 replicateMovement := false })
      let s3 := { s2 with pool := s2.pool ++ [id] }
      { s3 with totalObjectsCreated := s3.totalObjectsCreated + 1,
                totalPoolExpansions := s3.totalPoolExpansions + 1,
                inactiveObjects := (s3.pool.length : Int) - s3.activeObjects }

/-- The scan loop of `GetPooledObject` (lines 121-133): first pool entry
with `IsValid(Actor) && Actor->IsHidden()`. -/
def findFirstDormant (actors : List (Nat × ActorProps)) : List Nat → Option Nat
  | [] => none
  | a :: rest =>
    match lookupActor actors a with
    | some p => if p.hiddenInGame then some a else findFirstDormant actors rest
    | none => findFirstDormant actors rest

/-- The flag flips applied by the scan loop when it selects a member. -/
def activateForGet (s : PoolState) (a : Nat) : PoolState :=
  updateActor s a (fun p =>
    { p with hiddenInGame := false, collisionEnabled := true,
             tickEnabled := true, replicates := true,
             replicateMovement := true })

/-- Embeds `UObjectPoolingComponent::GetPooledObject` (lines 106-150). -/
def GetPooledObject (s : PoolState) : Option Nat × PoolState :=
  -- if (Pool.Num() == 0) return nullptr;
  if s.pool.length = 0 then (none, s)
  else
    match findFirstDormant s.actors s.pool with
    | some a => (some a, activateForGet s a)
    | none =>
      if s.bAutoExpand then
        let s1 := ExpandPool s
        -- return Pool.Last();  (unconditionally, after ExpandPool)
        (s1.pool.getLast?, s1)
      else (none, s)

/-- The flag updates `SpawnPooledActor` applies to the acquired actor
(transform, visibility, lifespan, destruction binding, replication). -/
def activateForSpawn (t : Vec3) (lifespan : Nat) (p : ActorProps) : ActorProps :=
  { p with location := t, hiddenInGame := false, collisionEnabled := true,
           tickEnabled := true, lifeSpan := lifespan,
           onDestroyedBound := true, replicates := true,
           replicateMovement := true }

/-- Embeds `UObjectPoolingComponent::SpawnPooledActor` (lines 177-226). -/
def SpawnPooledActor (s : PoolState) (t : Vec3) : Option Nat × PoolState :=
  if !s.hasAuthority then (none, s)
  else
    let s1 := { s with totalSpawnRequests := s.totalSpawnRequests + 1 }
    match GetPooledObject s1 with
    | (none, s2) => (none, s2)
    | (some a, s2) =>
      let s3 := if s2.classImplementsReset
                then { s2 with resetEvents := s2.resetEvents ++ [a] } else s2
      let s4 := updateActor s3 a (activateForSpawn t s3.actorLifespan)
      let s5 := { s4 with totalObjectsCreated := s4.totalObjectsCreated + 1,
                          activeObjects := s4.activeObjects + 1 }
      let s6 := { s5 with
                  inactiveObjects := (s5.pool.length : Int) - s5.activeObjects }
      let s7 := if s6.activeObjects > s6.peakUsage
                then { s6 with peakUsage := s6.activeObjects } else s6
      (some a, { s7 with spawnedEvents := s7.spawnedEvents ++ [a] })

/-- The flag flips `ReturnObjectToPool` applies to the returned actor. -/
def makeDormantProps (p : ActorProps) : ActorProps :=
  { p with hiddenInGame := true, collisionEnabled := false,
           tickEnabled := false, location := zeroVec,
           replicates := false, replicateMovement := false }

/-- Embeds `UObjectPoolingComponent::ReturnObjectToPool` (lines 152-175).
The argument is an `Option` because the source pointer may be null. -/
def ReturnObjectToPool (s : PoolState) (actor : Option Nat) : PoolState :=
  -- if (!GetOwner()->HasAuthority() || !Actor || !Pool.Contains(Actor)) return;
  if !s.hasAuthority then s
  else
    match actor with
    | none => s
    | some a =>
      if !(s.pool.contains a) then s
      else
        let s1 := updateActor s a makeDormantProps
        let s2 := { s1 with activeObjects := s1.activeObjects - 1 }
        let s3 := { s2 with
                    inactiveObjects := (s2.pool.length : Int) - s2.activeObjects }
        { s3 with returnedEvents := s3.returnedEvents ++ [a],
                  totalReturnRequests := s3.totalReturnRequests + 1 }

/-- Embeds `UObjectPoolingComponent::HandleDestroyedActor` (lines 98-104). -/
def HandleDestroyedActor (s : PoolState) (a : Nat) : PoolState :=
  if isValidActor s a && s.pool.contains a then ReturnObjectToPool s (some a)
  else s

/-- Environment event: the host world destroys a live actor.  The
`OnDestroyed` broadcast runs any bound handler while the actor is still
registered, then the actor is removed from the registry. -/
def destroyActorFromWorld (s : PoolState) (a : Nat) : PoolState :=
  match lookupActor s.actors a with
  | none => s
  | some p =>
    let s1 := if p.onDestroyedBound then HandleDestroyedActor s a else s
    { s1 with actors := s1.actors.filter (fun q => q.1 != a) }

/-- The `for (i = 0; i < PoolSize; ++i) ExpandPool();` loop. -/
def iterateExpand : Nat → PoolState → PoolState
  | 0, s => s
  | n + 1, s => iterateExpand n (ExpandPool s)

/-- Embeds `UObjectPoolingComponent::InitializePool` (lines 26-46).  The class
argument is abstracted to its validity. -/
def InitializePool (s : PoolState) (classValid : Bool) (initialSize : Int) :
    PoolState :=
  if !s.hasAuthority then s
  else
    let s1 := { s with pooledObjectClassSet := classValid,
                       poolSizeCfg := initialSize }
    iterateExpand initialSize.toNat s1

/-- Embeds `UObjectPoolingComponent::Multicast_OnPoolInitialized` (lines 91-96). -/
def Multicast_OnPoolInitialized (s : PoolState) : PoolState :=
  { s with initializedEvents := s.initializedEvents + 1 }

/-- Embeds `UObjectPoolingComponent::SpawnPooledActorAsync` (lines 228-266): the
synchronous part checks the class and world and enqueues a two-stage task
whose game-thread stage performs the allocation (`runAsyncSpawnTask`). -/
def SpawnPooledActorAsync (s : PoolState) (classOk : Bool) (t : Vec3) :
    PoolState :=
  if !classOk then s
  else if !s.worldValid then s
  else { s with pendingAsync := s.pendingAsync ++ [t] }

/-- The game-thread stage of one enqueued async allocation
(lines 239-264): re-checks the world, spawns, configures the actor
Dormant, appends it to `Pool` and bumps `TotalObjectsCreated`
(note: `InactiveObjects` is NOT recomputed here). -/
def runAsyncSpawnTask (s : PoolState) (t : Vec3) : PoolState :=
  if !s.worldValid then s
  else
    match spawnActor s t with
    | none => s  -- log error
    | some (id, s1) =>
      let s2 := updateActor s1 id (fun p =>
        { p with hiddenInGame := true, collisionEnabled := false,
                 tickEnabled := false, replicates := true,
                 replicateMovement := true })
      { s2 with pool := s2.pool ++ [id],
                totalObjectsCreated := s2.totalObjectsCreated + 1 }

/-- Scheduler event: the main scheduler runs the next pending async
allocation task. -/
def completeNextAsync (s : PoolState) : PoolState :=
  match s.pendingAsync with
  | [] => s
  | t :: rest => runAsyncSpawnTask { s with pendingAsync := rest } t

/-- The `for (i = 0; i < InitialPoolSize; i++) SpawnPooledActorAsync(...)`
loop of `StartAsyncSpawning`. -/
def iterateAsyncSpawn : Nat → PoolState → PoolState
  | 0, s => s
  | n + 1, s =>
    iterateAsyncSpawn n
      (SpawnPooledActorAsync s s.pooledObjectClassSet s.initialSpawnTransform)

/-- Embeds `UObjectPoolingComponent::StartAsyncSpawning` (lines 329-340). -/
def StartAsyncSpawning (s : PoolState) : PoolState :=
  let s1 := iterateAsyncSpawn s.initialPoolSize s
  Multicast_OnPoolInitialized s1

/-- Embeds `UObjectPoolingComponent::ExpandPoolAsync` (lines 299-327).  Its
transform parameter is unused by the source as well (the member
`InitialSpawnTransform` is what `StartAsyncSpawning` reads). -/
def ExpandPoolAsync (s : PoolState) (_t : Vec3) : PoolState :=
  if !s.hasAuthority then s
  else if !s.pooledObjectClassSet then
    if s.softClassValid then { s with pendingClassLoad := true }
    else s  -- log error: soft class not valid
  else StartAsyncSpawning s

/-- Embeds `UObjectPoolingComponent::OnActorClassLoaded` (lines 342-354):
promotes the loaded soft class to `PooledObjectClass` and resumes. -/
def OnActorClassLoaded (s : PoolState) : PoolState :=
  let s1 := { s with pooledObjectClassSet := s.softLoadSucceeds,
                     pendingClassLoad := false }
  if !s1.pooledObjectClassSet then s1  -- log error, stop
  else ExpandPoolAsync s1 s1.initialSpawnTransform

/-- Embeds `UObjectPoolingComponent::InitializePoolAsync_Implementation`
(lines 48-81).  Note the source structure: after the early return on
`!IsValid(PooledObjectClass)` at line 58, the `else` branch at line 69
(the async-load request) is unreachable; it is nevertheless mirrored
here (modelled as a plain load request). -/
def InitializePoolAsync (s : PoolState) (_initialSize : Int) : PoolState :=
  if !s.hasAuthority then s
  else
    let s1 := { s with initialSpawnTransform := ⟨0, 0, 100⟩ }
    if !s1.pooledObjectClassSet then s1  -- log warning, return
    else if s1.pooledObjectClassSet then
      ExpandPoolAsync s1 s1.initialSpawnTransform
    else { s1 with pendingClassLoad := true }  -- dead code in the source

/-- A freshly constructed component on some peer: empty pool and
registry, zeroed counters, no pending work, no events yet.  The
configuration fields are arbitrary. -/
def IsInit (s : PoolState) : Prop :=
  s.actors = [] ∧ s.nextId = 0 ∧ s.pool = [] ∧ s.pendingAsync = [] ∧
  s.pendingClassLoad = false ∧ s.totalObjectsCreated = 0 ∧
  s.activeObjects = 0 ∧ s.inactiveObjects = 0 ∧ s.totalSpawnRequests = 0 ∧
  s.totalReturnRequests = 0 ∧ s.totalPoolExpansions = 0 ∧ s.peakUsage = 0 ∧
  s.spawnedEvents = [] ∧ s.returnedEvents = [] ∧ s.resetEvents = [] ∧
  s.initializedEvents = 0

/-- One step of the component: any public operation with any arguments,
a host-scheduler event (async allocation task, class-load completion),
an out-of-band actor destruction by the world, or a change of the
environment capabilities / editable configuration. -/
inductive Step : PoolState → PoolState → Prop
  | initializePool (s : PoolState) (cv : Bool) (n : Int) :
      Step s (InitializePool s cv n)
  | initializePoolAsync (s : PoolState) (n : Int) :
      Step s (InitializePoolAsync s n)
  | spawnPooledActor (s : PoolState) (t : Vec3) :
      Step s (SpawnPooledActor s t).2
  | getPooledObject (s : PoolState) :
      Step s (GetPooledObject s).2
  | returnObjectToPool (s : PoolState) (a : Option Nat) :
      Step s (ReturnObjectToPool s a)
  | expandPool (s : PoolState) :
      Step s (ExpandPool s)
  | destroyActor (s : PoolState) (a : Nat) :
      Step s (destroyActorFromWorld s a)
  | classLoaded (s : PoolState) :
      s.pendingClassLoad = true → Step s (OnActorClassLoaded s)
  | asyncTask (s : PoolState) :
      Step s (completeNextAsync s)
  | env (s : PoolState) (w sp sl ae cir : Bool) (al : Nat) :
      Step s { s with worldValid := w, spawnSucceeds := sp,
                      softLoadSucceeds := sl, bAutoExpand := ae,
                      classImplementsReset := cir, actorLifespan := al }

/-- A state is reachable when some finite run from a fresh component
produces it. -/
def Reachable (s : PoolState) : Prop :=
  ∃ s0, IsInit s0 ∧ Relation.ReflTransGen Step s0 s

/-- The counter bookkeeping invariant of the spec:
`ActiveObjects + InactiveObjects = |Pool|`. -/
def sumInv (s : PoolState) : Prop :=
  s.activeObjects + s.inactiveObjects = (s.pool.length : Int)

/-- The peak-usage invariant of the spec: `PeakUsage ≥ ActiveObjects`. -/
def peakInv (s : PoolState) : Prop :=
  s.activeObjects ≤ s.peakUsage

/-- A concrete authoritative server-side component configuration used to
evaluate the operations on explicit inputs: class set, world valid,
spawns succeed, lifespan 5, async initial size 2, auto-expand off. -/
def testState : PoolState :=
  { actors := [], nextId := 0, pool := [], pooledObjectClassSet := true,
    softClassValid := true, softLoadSucceeds := true, poolSizeCfg := 0,
    initialPoolSize := 2, bAutoExpand := false, actorLifespan := 5,
    hasAuthority := true, worldValid := true, spawnSucceeds := true,
    classImplementsReset := false, initialSpawnTransform := ⟨0, 0, 0⟩,
    pendingClassLoad := false, pendingAsync := [],
    totalObjectsCreated := 0, activeObjects := 0, inactiveObjects := 0,
    totalSpawnRequests := 0, totalReturnRequests := 0,
    totalPoolExpansions := 0, peakUsage := 0, spawnedEvents := [],
    returnedEvents := [], resetEvents := [], initializedEvents := 0 }

/-! ### Helper lemmas -/

lemma lookupActor_update_self (l : List (Nat × ActorProps)) (a : Nat)
    (f : ActorProps → ActorProps) :
    lookupActor (l.map (fun p => if p.1 = a then (p.1, f p.2) else p)) a =
      (lookupActor l a).map f := by
  induction l with
  | nil => rfl
  | cons p rest ih =>
    by_cases h : p.1 = a <;> simp [lookupActor, h, ih]

lemma lookupActor_update_other (l : List (Nat × ActorProps)) (a b : Nat)
    (f : ActorProps → ActorProps) (h : b ≠ a) :
    lookupActor (l.map (fun p => if p.1 = a then (p.1, f p.2) else p)) b =
      lookupActor l b := by
  induction l with
  | nil => rfl
  | cons p rest ih =>
    by_cases hp : p.1 = a
    · simp [lookupActor, hp, h, Ne.symm h, ih]
    · by_cases hb : p.1 = b <;> simp [lookupActor, hp, hb, h, Ne.symm h, ih]

/-- If the scan loop finds nobody, no pool entry is a live hidden actor. -/
lemma findFirstDormant_none (actors : List (Nat × ActorProps))
    (l : List Nat) (h : findFirstDormant actors l = none) :
    ∀ a ∈ l, ∀ p, lookupActor actors a = some p → p.hiddenInGame = false := by
  induction l with
  | nil => intro a ha; exact absurd ha (List.not_mem_nil a)
  | cons b rest ih =>
    intro a ha p hp
    unfold findFirstDormant at h
    rcases hl : lookupActor actors b with _ | q
    · rw [hl] at h
      rcases List.mem_cons.mp ha with rfl | hmem
      · rw [hl] at hp; exact absurd hp (by simp)
      · exact ih h a hmem p hp
    · rw [hl] at h
      by_cases hh : q.hiddenInGame = true
      · simp [hh] at h
      · simp only [hh, if_false] at h
        rcases List.mem_cons.mp ha with rfl | hmem
        · rw [hl] at hp
          obtain rfl : q = p := by simpa using hp
          exact Bool.eq_false_iff.mpr hh
        · exact ih h a hmem p hp

/-- If the scan loop finds `a`, then `a` is the earliest live hidden
entry: everything before it in the pool is dead or visible. -/
lemma findFirstDormant_some (actors : List (Nat × ActorProps))
    (l : List Nat) (a : Nat) (h : findFirstDormant actors l = some a) :
    ∃ l1 l2, l = l1 ++ a :: l2 ∧
      (∀ b ∈ l1, ∀ p, lookupActor actors b = some p →
        p.hiddenInGame = false) ∧
      ∃ p, lookupActor actors a = some p ∧ p.hiddenInGame = true := by
  induction l with
  | nil => exact absurd h (by simp [findFirstDormant])
  | cons b rest ih =>
    unfold findFirstDormant at h
    rcases hl : lookupActor actors b with _ | q
    · rw [hl] at h
      obtain ⟨l1, l2, heq, hbef, hfnd⟩ := ih h
      refine ⟨b :: l1, l2, by simp [heq], ?_, hfnd⟩
      intro c hc p hp
      rcases List.mem_cons.mp hc with rfl | hc2
      · rw [hl] at hp; exact absurd hp (by simp)
      · exact hbef c hc2 p hp
    · rw [hl] at h
      by_cases hh : q.hiddenInGame = true
      · simp only [hh, if_true] at h
        obtain rfl : b = a := by simpa using h
        exact ⟨[], rest, rfl, by simp, q, hl, hh⟩
      · simp only [hh, if_false] at h
        obtain ⟨l1, l2, heq, hbef, hfnd⟩ := ih h
        refine ⟨b :: l1, l2, by simp [heq], ?_, hfnd⟩
        intro c hc p hp
        rcases List.mem_cons.mp hc with rfl | hc2
        · rw [hl] at hp
          obtain rfl : q = p := by simpa using hp
          exact Bool.eq_false_iff.mpr hh
        · exact hbef c hc2 p hp

lemma getLast?_append_singleton (l : List Nat) (x : Nat) :
    (l ++ [x]).getLast? = some x :=
  (List.getLast?_append_cons l x []).trans rfl

/-! ### Field-preservation lemmas for the reachability invariant -/

lemma ExpandPool_active_peak (s : PoolState) :
    (ExpandPool s).activeObjects = s.activeObjects ∧
    (ExpandPool s).peakUsage = s.peakUsage := by
  unfold ExpandPool spawnActor
  split
  · exact ⟨rfl, rfl⟩
  · cases h : s.spawnSucceeds <;> simp [h, updateActor]

lemma iterateExpand_active_peak (n : Nat) (s : PoolState) :
    (iterateExpand n s).activeObjects = s.activeObjects ∧
    (iterateExpand n s).peakUsage = s.peakUsage := by
  induction n generalizing s with
  | zero => exact ⟨rfl, rfl⟩
  | succ n ih =>
    exact ⟨((ih (ExpandPool s)).1).trans (ExpandPool_active_peak s).1,
           ((ih (ExpandPool s)).2).trans (ExpandPool_active_peak s).2⟩

lemma GetPooledObject_active_peak (s : PoolState) :
    ((GetPooledObject s).2).activeObjects = s.activeObjects ∧
    ((GetPooledObject s).2).peakUsage = s.peakUsage := by
  unfold GetPooledObject
  split
  · exact ⟨rfl, rfl⟩
  · split
    · simp [activateForGet, updateActor]
    · split
      · simpa using ExpandPool_active_peak s
      · exact ⟨rfl, rfl⟩

lemma InitializePool_peakInv (s : PoolState) (cv : Bool) (n : Int)
    (h : peakInv s) : peakInv (InitializePool s cv n) := by
  unfold InitializePool
  split
  · exact h
  · unfold peakInv at h ⊢
    rw [(iterateExpand_active_peak _ _).1, (iterateExpand_active_peak _ _).2]
    exact h

lemma SpawnPooledActor_peakInv (s : PoolState) (t : Vec3)
    (h : peakInv s) : peakInv (SpawnPooledActor s t).2 := by
  unfold SpawnPooledActor
  split
  · exact h
  · rcases heq : GetPooledObject
      { s with totalSpawnRequests := s.totalSpawnRequests + 1 } with ⟨r, s2⟩
    have hg := GetPooledObject_active_peak
      { s with totalSpawnRequests := s.totalSpawnRequests + 1 }
    rw [heq] at hg
    simp only at hg
    cases r with
    | none =>
      simp only [heq]
      unfold peakInv
      rw [hg.1, hg.2]
      exact h
    | some a =>
      simp only [heq, peakInv, updateActor]
      split_ifs <;> simp_all

lemma ReturnObjectToPool_peakInv (s : PoolState) (a : Option Nat)
    (h : peakInv s) : peakInv (ReturnObjectToPool s a) := by
  unfold ReturnObjectToPool
  split
  · exact h
  · match a with
    | none => exact h
    | some x =>
      simp only
      split
      · exact h
      · unfold peakInv at h ⊢
        simp only [updateActor]
        omega

lemma destroyActorFromWorld_peakInv (s : PoolState) (a : Nat)
    (h : peakInv s) : peakInv (destroyActorFromWorld s a) := by
  unfold destroyActorFromWorld HandleDestroyedActor
  split
  · exact h
  · split
    · split
      · have := ReturnObjectToPool_peakInv s (some a) h
        unfold peakInv at this ⊢
        simpa using this
      · exact h
    · exact h

lemma GetPooledObject_peakInv (s : PoolState) (h : peakInv s) :
    peakInv (GetPooledObject s).2 := by
  unfold peakInv at h ⊢
  rw [(GetPooledObject_active_peak s).1, (GetPooledObject_active_peak s).2]
  exact h

lemma ExpandPool_peakInv (s : PoolState) (h : peakInv s) :
    peakInv (ExpandPool s) := by
  unfold peakInv at h ⊢
  rw [(ExpandPool_active_peak s).1, (ExpandPool_active_peak s).2]
  exact h

lemma SpawnPooledActorAsync_active_peak (s : PoolState) (c : Bool) (t : Vec3) :
    (SpawnPooledActorAsync s c t).activeObjects = s.activeObjects ∧
    (SpawnPooledActorAsync s c t).peakUsage = s.peakUsage := by
  unfold SpawnPooledActorAsync
  split
  · exact ⟨rfl, rfl⟩
  · split <;> exact ⟨rfl, rfl⟩

lemma iterateAsyncSpawn_active_peak (n : Nat) (s : PoolState) :
    (iterateAsyncSpawn n s).activeObjects = s.activeObjects ∧
    (iterateAsyncSpawn n s).peakUsage = s.peakUsage := by
  induction n generalizing s with
  | zero => exact ⟨rfl, rfl⟩
  | succ n ih =>
    exact ⟨((ih _).1).trans (SpawnPooledActorAsync_active_peak s _ _).1,
           ((ih _).2).trans (SpawnPooledActorAsync_active_peak s _ _).2⟩

lemma StartAsyncSpawning_active_peak (s : PoolState) :
    (StartAsyncSpawning s).activeObjects = s.activeObjects ∧
    (StartAsyncSpawning s).peakUsage = s.peakUsage := by
  unfold StartAsyncSpawning Multicast_OnPoolInitialized
  exact ⟨(iterateAsyncSpawn_active_peak _ s).1,
         (iterateAsyncSpawn_active_peak _ s).2⟩

lemma ExpandPoolAsync_active_peak (s : PoolState) (t : Vec3) :
    (ExpandPoolAsync s t).activeObjects = s.activeObjects ∧
    (ExpandPoolAsync s t).peakUsage = s.peakUsage := by
  unfold ExpandPoolAsync
  split
  · exact ⟨rfl, rfl⟩
  · split
    · split <;> exact ⟨rfl, rfl⟩
    · exact StartAsyncSpawning_active_peak s

lemma InitializePoolAsync_active_peak (s : PoolState) (n : Int) :
    (InitializePoolAsync s n).activeObjects = s.activeObjects ∧
    (InitializePoolAsync s n).peakUsage = s.peakUsage := by
  unfold InitializePoolAsync
  split
  · exact ⟨rfl, rfl⟩
  · cases hc : s.pooledObjectClassSet with
    | false => simp [hc]
    | true =>
      simp only [hc, Bool.not_true, Bool.false_eq_true, if_false, if_true]
      exact ⟨(ExpandPoolAsync_active_peak _ _).1,
             (ExpandPoolAsync_active_peak _ _).2⟩

lemma OnActorClassLoaded_active_peak (s : PoolState) :
    (OnActorClassLoaded s).activeObjects = s.activeObjects ∧
    (OnActorClassLoaded s).peakUsage = s.peakUsage := by
  unfold OnActorClassLoaded
  cases hc : s.softLoadSucceeds with
  | false => simp [hc]
  | true =>
    simp only [hc, Bool.not_true, Bool.false_eq_true, if_false, if_true]
    exact ⟨(ExpandPoolAsync_active_peak _ _).1,
           (ExpandPoolAsync_active_peak _ _).2⟩

lemma runAsyncSpawnTask_active_peak (s : PoolState) (t : Vec3) :
    (runAsyncSpawnTask s t).activeObjects = s.activeObjects ∧
    (runAsyncSpawnTask s t).peakUsage = s.peakUsage := by
  unfold runAsyncSpawnTask spawnActor
  split
  · exact ⟨rfl, rfl⟩
  · cases h : s.spawnSucceeds <;> simp [h, updateActor]

lemma completeNextAsync_active_peak (s : PoolState) :
    (completeNextAsync s).activeObjects = s.activeObjects ∧
    (completeNextAsync s).peakUsage = s.peakUsage := by
  unfold completeNextAsync
  split
  · exact ⟨rfl, rfl⟩
  · exact runAsyncSpawnTask_active_peak _ _

/-- One component step preserves the peak-usage invariant. -/
lemma Step_peakInv {s s' : PoolState} (hs : Step s s') (h : peakInv s) :
    peakInv s' := by
  cases hs with
  | initializePool cv n => exact InitializePool_peakInv s cv n h
  | initializePoolAsync n =>
    unfold peakInv at h ⊢
    rw [(InitializePoolAsync_active_peak s n).1,
        (InitializePoolAsync_active_peak s n).2]
    exact h
  | spawnPooledActor t => exact SpawnPooledActor_peakInv s t h
  | getPooledObject => exact GetPooledObject_peakInv s h
  | returnObjectToPool a => exact ReturnObjectToPool_peakInv s a h
  | expandPool => exact ExpandPool_peakInv s h
  | destroyActor a => exact destroyActorFromWorld_peakInv s a h
  | classLoaded _ =>
    unfold peakInv at h ⊢
    rw [(OnActorClassLoaded_active_peak s).1,
        (OnActorClassLoaded_active_peak s).2]
    exact h
  | asyncTask =>
    unfold peakInv at h ⊢
    rw [(completeNextAsync_active_peak s).1,
        (completeNextAsync_active_peak s).2]
    exact h
  | env w sp sl ae cir al => exact h

/-- Every reachable state satisfies `PeakUsage ≥ ActiveObjects`. -/
lemma Reachable_peakInv {s : PoolState} (h : Reachable s) : peakInv s := by
  obtain ⟨s0, hinit, hrun⟩ := h
  induction hrun with
  | refl =>
    unfold peakInv
    rw [hinit.2.2.2.2.2.2.1, hinit.2.2.2.2.2.2.2.2.2.2.2.1]
  | tail _ hstep ih => exact Step_peakInv hstep ih

/-! ### Behavioural helper lemmas -/

lemma getLast?_isSome_of_ne_nil (l : List Nat) (h : l ≠ []) :
    ∃ a, l.getLast? = some a := by
  induction l with
  | nil => exact absurd rfl h
  | cons b rest ih =>
    cases rest with
    | nil => exact ⟨b, rfl⟩
    | cons c r2 =>
      obtain ⟨a, ha⟩ := ih (by simp)
      exact ⟨a, by rw [List.getLast?_cons_cons]; exact ha⟩

lemma mem_of_getLast?_eq_some (l : List Nat) (a : Nat)
    (h : l.getLast? = some a) : a ∈ l := by
  induction l with
  | nil => simp at h
  | cons b rest ih =>
    cases rest with
    | nil =>
      simp only [List.getLast?_singleton, Option.some.injEq] at h
      simp [h]
    | cons c r2 =>
      rw [List.getLast?_cons_cons] at h
      exact List.mem_cons_of_mem b (ih h)

lemma lookupActor_filter_self (l : List (Nat × ActorProps)) (a : Nat) :
    lookupActor (l.filter (fun q => q.1 != a)) a = none := by
  induction l with
  | nil => rfl
  | cons p rest ih =>
    by_cases hp : p.1 = a
    · have hb : (p.1 != a) = false := by simp [hp]
      simp [List.filter, hb, ih]
    · have hb : (p.1 != a) = true := by simp [hp]
      simp [List.filter, hb, lookupActor, hp, ih]

/-- Lemma: `ExpandPool` is the identity whenever its guard fails or the host
spawn primitive fails. -/
lemma ExpandPool_fail_noop (s : PoolState)
    (hfail : s.hasAuthority = false ∨ s.worldValid = false ∨
             s.pooledObjectClassSet = false ∨ s.spawnSucceeds = false) :
    ExpandPool s = s := by
  unfold ExpandPool spawnActor
  rcases hfail with h | h | h | h
  · simp [h]
  · simp [h]
  · simp [h]
  · split
    · rfl
    · simp [h]

/-- What `ExpandPool` does when its guard passes and the spawn
succeeds: a fresh actor is configured Dormant and appended. -/
lemma ExpandPool_success (s : PoolState)
    (hauth : s.hasAuthority = true) (hw : s.worldValid = true)
    (hc : s.pooledObjectClassSet = true) (hsp : s.spawnSucceeds = true) :
    (ExpandPool s).pool = s.pool ++ [s.nextId] ∧
    lookupActor (ExpandPool s).actors s.nextId =
      some { hiddenInGame := true, collisionEnabled := false,
             tickEnabled := false, location := zeroVec,
             replicates := true, replicateMovement := false,
             lifeSpan := 0, onDestroyedBound := false } ∧
    (ExpandPool s).activeObjects = s.activeObjects ∧
    (ExpandPool s).totalObjectsCreated = s.totalObjectsCreated + 1 ∧
    (ExpandPool s).totalPoolExpansions = s.totalPoolExpansions + 1 ∧
    (ExpandPool s).inactiveObjects =
      ((s.pool.length : Int) + 1) - s.activeObjects := by
  unfold ExpandPool spawnActor
  simp [hauth, hw, hc, hsp, updateActor, lookupActor, freshActorProps]

/-- Behaviour of `GetPooledObject` when the scan finds a Dormant member. -/
lemma GetPooledObject_dormant_eq (s : PoolState) (a : Nat)
    (hfd : findFirstDormant s.actors s.pool = some a) :
    GetPooledObject s = (some a, activateForGet s a) := by
  have hne : ¬s.pool.length = 0 := by
    obtain ⟨l1, l2, heq, -, -⟩ := findFirstDormant_some _ _ _ hfd
    simp [heq]
  unfold GetPooledObject
  rw [if_neg hne, hfd]

/-- Behaviour of `GetPooledObject` when the pool is nonempty, the scan finds nothing
and auto-expansion is disabled. -/
lemma GetPooledObject_none_case (s : PoolState)
    (hae : s.bAutoExpand = false)
    (hnd : findFirstDormant s.actors s.pool = none) :
    GetPooledObject s = (none, s) := by
  unfold GetPooledObject
  split
  · rfl
  · rw [hnd]
    simp [hae]

/-- All observable effects of a guarded successful
`ReturnObjectToPool`. -/
lemma Return_effects (s : PoolState) (a : Nat) (p : ActorProps)
    (hauth : s.hasAuthority = true) (hmem : s.pool.contains a = true)
    (hlk : lookupActor s.actors a = some p) :
    (ReturnObjectToPool s (some a)).activeObjects = s.activeObjects - 1 ∧
    (ReturnObjectToPool s (some a)).inactiveObjects =
      (s.pool.length : Int) - (s.activeObjects - 1) ∧
    (ReturnObjectToPool s (some a)).pool = s.pool ∧
    (ReturnObjectToPool s (some a)).returnedEvents =
      s.returnedEvents ++ [a] ∧
    (ReturnObjectToPool s (some a)).totalReturnRequests =
      s.totalReturnRequests + 1 ∧
    lookupActor (ReturnObjectToPool s (some a)).actors a =
      some (makeDormantProps p) ∧
    (ReturnObjectToPool s (some a)).hasAuthority = s.hasAuthority ∧
    (ReturnObjectToPool s (some a)).totalSpawnRequests =
      s.totalSpawnRequests ∧
    (ReturnObjectToPool s (some a)).totalObjectsCreated =
      s.totalObjectsCreated ∧
    (ReturnObjectToPool s (some a)).totalPoolExpansions =
      s.totalPoolExpansions ∧
    (ReturnObjectToPool s (some a)).peakUsage = s.peakUsage ∧
    (ReturnObjectToPool s (some a)).spawnedEvents = s.spawnedEvents := by
  unfold ReturnObjectToPool
  simp only [hauth, hmem, Bool.not_true, Bool.false_eq_true, if_false,
             updateActor]
  simp [lookupActor_update_self, hlk]

/-- The `StartAsyncSpawning` loop enqueues one game-thread allocation
task per iteration when the class is set and the world is valid. -/
lemma iterateAsyncSpawn_pending (k : Nat) (s : PoolState)
    (hc : s.pooledObjectClassSet = true) (hw : s.worldValid = true) :
    iterateAsyncSpawn k s =
      { s with pendingAsync := s.pendingAsync ++
          List.replicate k s.initialSpawnTransform } := by
  induction k generalizing s with
  | zero => simp [iterateAsyncSpawn]
  | succ k ih =>
    unfold iterateAsyncSpawn SpawnPooledActorAsync
    rw [if_neg (by simp [hc]), if_neg (by simp [hw])]
    rw [ih { s with pendingAsync :=
          s.pendingAsync ++ [s.initialSpawnTransform] } hc hw]
    simp [List.replicate_succ]

/-! ### Claim theorems -/

/-- C2: every mutating operation (`InitializePool`, `SpawnPooledActor`,
`ReturnObjectToPool`, `ExpandPool`, `InitializePoolAsync`) called on a
peer whose owner lacks authority is a no-op: the state — in particular
the `Pool` sequence and all seven counters — is unchanged, and
`SpawnPooledActor` returns null. -/
theorem c2_nonauthority_noop (s : PoolState) (h : s.hasAuthority = false) :
    (∀ cv n, InitializePool s cv n = s) ∧
    (∀ t, SpawnPooledActor s t = (none, s)) ∧
    (∀ a, ReturnObjectToPool s a = s) ∧
    ExpandPool s = s ∧
    (∀ n, InitializePoolAsync s n = s) := by
  refine ⟨?_, ?_, ?_, ?_, ?_⟩ <;> intros <;>
    simp [InitializePool, SpawnPooledActor, ReturnObjectToPool, ExpandPool,
          InitializePoolAsync, h]

/-- Witness for C2 at a concrete non-authoritative peer state. -/
theorem c2_nonauthority_noop_witness :
    InitializePool { testState with hasAuthority := false } true 3 =
      { testState with hasAuthority := false } ∧
    SpawnPooledActor { testState with hasAuthority := false } ⟨1, 2, 3⟩ =
      (none, { testState with hasAuthority := false }) ∧
    ReturnObjectToPool { testState with hasAuthority := false } (some 0) =
      { testState with hasAuthority := false } := by
  have h := c2_nonauthority_noop { testState with hasAuthority := false }
    (by decide)
  exact ⟨h.1 true 3, h.2.1 ⟨1, 2, 3⟩, h.2.2.1 (some 0)⟩

/-- C6: on the authority, with auto-expansion disabled and no live
Dormant member in the pool, `SpawnPooledActor` returns null and the only
state change is `TotalSpawnRequests` incremented by one (the increment
happens on entry, before acquisition is attempted). -/
theorem c6_exhaustion (s : PoolState) (t : Vec3)
    (hauth : s.hasAuthority = true) (hae : s.bAutoExpand = false)
    (hnd : findFirstDormant s.actors s.pool = none) :
    SpawnPooledActor s t =
      (none, { s with totalSpawnRequests := s.totalSpawnRequests + 1 }) := by
  have hget : GetPooledObject
      { s with totalSpawnRequests := s.totalSpawnRequests + 1 } =
      (none, { s with totalSpawnRequests := s.totalSpawnRequests + 1 }) :=
    GetPooledObject_none_case _ hae hnd
  unfold SpawnPooledActor
  rw [if_neg (by simp [hauth])]
  simp [hget]

/-- Witness for C6: a pool whose single member is Active (visible). -/
theorem c6_exhaustion_witness :
    SpawnPooledActor
        (SpawnPooledActor (InitializePool testState true 1) ⟨1, 2, 3⟩).2
        ⟨4, 5, 6⟩ =
      (none,
       { (SpawnPooledActor (InitializePool testState true 1) ⟨1, 2, 3⟩).2 with
         totalSpawnRequests :=
           (SpawnPooledActor (InitializePool testState true 1)
             ⟨1, 2, 3⟩).2.totalSpawnRequests + 1 }) :=
  c6_exhaustion _ _ (by decide) (by decide) (by decide)

/-- C10: when the scan of `GetPooledObject` finds an existing Dormant
member, the function behaves identically for every value of the owner
authority flag (it performs no authority check), flips only the engine
flags of the found member, changes no counter, and fires no observer
event; the acquisition counters and the spawned-observer broadcast live
only in `SpawnPooledActor`. -/
theorem c10_get_dormant_pure (s : PoolState) (a : Nat) (b : Bool)
    (hfd : findFirstDormant s.actors s.pool = some a) :
    (GetPooledObject { s with hasAuthority := b }).1 = some a ∧
    (GetPooledObject { s with hasAuthority := b }).2 =
      { activateForGet s a with hasAuthority := b } ∧
    (GetPooledObject { s with hasAuthority := b }).2.totalObjectsCreated =
      s.totalObjectsCreated ∧
    (GetPooledObject { s with hasAuthority := b }).2.activeObjects =
      s.activeObjects ∧
    (GetPooledObject { s with hasAuthority := b }).2.inactiveObjects =
      s.inactiveObjects ∧
    (GetPooledObject { s with hasAuthority := b }).2.totalSpawnRequests =
      s.totalSpawnRequests ∧
    (GetPooledObject { s with hasAuthority := b }).2.totalReturnRequests =
      s.totalReturnRequests ∧
    (GetPooledObject { s with hasAuthority := b }).2.totalPoolExpansions =
      s.totalPoolExpansions ∧
    (GetPooledObject { s with hasAuthority := b }).2.peakUsage =
      s.peakUsage ∧
    (GetPooledObject { s with hasAuthority := b }).2.spawnedEvents =
      s.spawnedEvents ∧
    (GetPooledObject { s with hasAuthority := b }).2.returnedEvents =
      s.returnedEvents ∧
    (GetPooledObject { s with hasAuthority := b }).2.initializedEvents =
      s.initializedEvents ∧
    (GetPooledObject { s with hasAuthority := b }).2.pool = s.pool ∧
    lookupActor (GetPooledObject { s with hasAuthority := b }).2.actors a =
      (lookupActor s.actors a).map (fun p =>
        { p with hiddenInGame := false, collisionEnabled := true,
                 tickEnabled := true, replicates := true,
                 replicateMovement := true }) := by
  have hfd2 : findFirstDormant ({ s with hasAuthority := b } : PoolState).actors
      ({ s with hasAuthority := b } : PoolState).pool = some a := hfd
  have heq := GetPooledObject_dormant_eq { s with hasAuthority := b } a hfd2
  rw [heq]
  refine ⟨rfl, rfl, rfl, rfl, rfl, rfl, rfl, rfl, rfl, rfl, rfl, rfl, rfl, ?_⟩
  exact lookupActor_update_self s.actors a
    (fun q => { q with hiddenInGame := false, collisionEnabled := true,
                       tickEnabled := true, replicates := true,
                       replicateMovement := true })

/-- Witness for C10 on a freshly initialized one-member pool, with the
authority flag turned off. -/
theorem c10_get_dormant_pure_witness :
    (GetPooledObject { InitializePool testState true 1 with
        hasAuthority := false }).1 = some 0 ∧
    (GetPooledObject { InitializePool testState true 1 with
        hasAuthority := false }).2.activeObjects =
      (InitializePool testState true 1).activeObjects :=
  ⟨(c10_get_dormant_pure (InitializePool testState true 1) 0 false
      (by decide)).1,
   (c10_get_dormant_pure (InitializePool testState true 1) 0 false
      (by decide)).2.2.2.1⟩

/-- C9: with auto-expansion enabled, a nonempty pool, and no member both
live and hidden, `GetPooledObject` calls `ExpandPool` and then returns
the last element of `Pool` unconditionally; when the expansion appends
nothing (missing authority, invalid world, unset class, or spawn
failure) the returned value is the previously last member — a member
that is not a live Dormant actor (if live, it is visible and in use) —
rather than null. -/
theorem c9_autoexpand_returns_last (s : PoolState)
    (hae : s.bAutoExpand = true) (hne : s.pool ≠ [])
    (hnd : findFirstDormant s.actors s.pool = none)
    (hfail : s.hasAuthority = false ∨ s.worldValid = false ∨
             s.pooledObjectClassSet = false ∨ s.spawnSucceeds = false) :
    ∃ a, s.pool.getLast? = some a ∧
      GetPooledObject s = (some a, s) ∧
      ¬(isValidActor s a = true ∧ isHiddenActor s a = true) ∧
      (isValidActor s a = true → isHiddenActor s a = false) := by
  obtain ⟨a, ha⟩ := getLast?_isSome_of_ne_nil s.pool hne
  have hmem : a ∈ s.pool := mem_of_getLast?_eq_some _ _ ha
  have hnoop : ExpandPool s = s := ExpandPool_fail_noop s hfail
  have hlen : ¬s.pool.length = 0 := by
    cases hpool : s.pool with
    | nil => exact absurd hpool hne
    | cons b rest => simp [hpool]
  have hget : GetPooledObject s = (some a, s) := by
    unfold GetPooledObject
    rw [if_neg hlen, hnd]
    simp [hae, hnoop, ha]
  have hnotdorm : isValidActor s a = true → isHiddenActor s a = false := by
    intro hv
    unfold isValidActor at hv
    rcases hl : lookupActor s.actors a with _ | p
    · rw [hl] at hv; exact absurd hv (by simp)
    · have := findFirstDormant_none s.actors s.pool hnd a hmem p hl
      unfold isHiddenActor
      rw [hl]
      exact this
  refine ⟨a, ha, hget, ?_, hnotdorm⟩
  rintro ⟨hv, hh⟩
  rw [hnotdorm hv] at hh
  exact absurd hh (by simp)

/-- Witness for C9: one-member pool, member Active, auto-expansion on,
host spawn primitive failing. -/
theorem c9_autoexpand_returns_last_witness :
    ∃ a, ({ (SpawnPooledActor (InitializePool testState true 1)
              ⟨1, 2, 3⟩).2 with
            bAutoExpand := true, spawnSucceeds := false } :
              PoolState).pool.getLast? = some a ∧
      GetPooledObject { (SpawnPooledActor (InitializePool testState true 1)
              ⟨1, 2, 3⟩).2 with
            bAutoExpand := true, spawnSucceeds := false } =
        (some a, { (SpawnPooledActor (InitializePool testState true 1)
              ⟨1, 2, 3⟩).2 with
            bAutoExpand := true, spawnSucceeds := false }) ∧
      ¬(isValidActor { (SpawnPooledActor (InitializePool testState true 1)
              ⟨1, 2, 3⟩).2 with
            bAutoExpand := true, spawnSucceeds := false } a = true ∧
        isHiddenActor { (SpawnPooledActor (InitializePool testState true 1)
              ⟨1, 2, 3⟩).2 with
            bAutoExpand := true, spawnSucceeds := false } a = true) ∧
      (isValidActor { (SpawnPooledActor (InitializePool testState true 1)
              ⟨1, 2, 3⟩).2 with
            bAutoExpand := true, spawnSucceeds := false } a = true →
       isHiddenActor { (SpawnPooledActor (InitializePool testState true 1)
              ⟨1, 2, 3⟩).2 with
            bAutoExpand := true, spawnSucceeds := false } a = false) :=
  c9_autoexpand_returns_last _ (by decide) (by decide) (by decide)
    (Or.inr (Or.inr (Or.inr (by decide))))

/-- C1 counterexample: the claim includes completed async allocations
among the transitions after which `ActiveObjects + InactiveObjects =
|Pool|` holds, but the async allocation task appends to `Pool` and bumps
`TotalObjectsCreated` without recomputing `InactiveObjects`: after
`InitializePoolAsync` on a fresh authoritative component and one
completed allocation task, the pool has one member while both counters
are still zero. -/
theorem c1_counterexample :
    ¬ sumInv (completeNextAsync (InitializePoolAsync testState 5)) ∧
    (completeNextAsync (InitializePoolAsync testState 5)).pool.length = 1 ∧
    (completeNextAsync (InitializePoolAsync testState 5)).activeObjects = 0 ∧
    (completeNextAsync (InitializePoolAsync testState 5)).inactiveObjects
      = 0 := by
  refine ⟨?_, by decide, by decide, by decide⟩
  unfold sumInv
  decide

/-- C1 (amended): `ActiveObjects + InactiveObjects = |Pool|` holds after
every completed synchronous transition — a successful `ExpandPool`, a
successful `SpawnPooledActor`, a guarded `ReturnObjectToPool` — but not
after completed async allocations, which do not recompute
`InactiveObjects`; and `PeakUsage ≥ ActiveObjects` holds in every
reachable state. -/
theorem c1_amended :
    (∀ s : PoolState, s.hasAuthority = true → s.worldValid = true →
      s.pooledObjectClassSet = true → s.spawnSucceeds = true →
      sumInv (ExpandPool s)) ∧
    (∀ (s : PoolState) (t : Vec3),
      ((SpawnPooledActor s t).1).isSome = true →
      sumInv (SpawnPooledActor s t).2) ∧
    (∀ (s : PoolState) (a : Nat), s.hasAuthority = true →
      s.pool.contains a = true →
      sumInv (ReturnObjectToPool s (some a))) ∧
    (∀ s : PoolState, Reachable s → peakInv s) := by
  refine ⟨?_, ?_, ?_, fun s h => Reachable_peakInv h⟩
  · intro s h1 h2 h3 h4
    unfold sumInv ExpandPool spawnActor
    simp [h1, h2, h3, h4, updateActor]
  · intro s t hsome
    unfold SpawnPooledActor at hsome ⊢
    by_cases hauth : s.hasAuthority = true
    · rw [if_neg (by simp [hauth])] at hsome ⊢
      rcases heq : GetPooledObject
        { s with totalSpawnRequests := s.totalSpawnRequests + 1 } with ⟨r, s2⟩
      simp only [heq] at hsome ⊢
      cases r with
      | none => simp at hsome
      | some a =>
        unfold sumInv
        simp only [updateActor]
        split_ifs <;> simp
    · rw [if_pos (by simp [Bool.not_eq_true] at hauth ⊢; exact hauth)] at hsome
      simp at hsome
  · intro s a hauth hmem
    have hmem2 : a ∈ s.pool := by simpa using hmem
    unfold sumInv ReturnObjectToPool
    simp [hauth, hmem, hmem2, updateActor]

/-- Witness for C1 (amended), applied to the concrete test
configuration: a fresh component is reachable and a synchronous
expansion from it restores the sum invariant. -/
theorem c1_amended_witness :
    sumInv (ExpandPool testState) ∧ peakInv testState := by
  refine ⟨c1_amended.1 testState rfl rfl rfl rfl,
          c1_amended.2.2.2 testState ⟨testState, ?_, Relation.ReflTransGen.refl⟩⟩
  unfold IsInit
  refine ⟨rfl, rfl, rfl, rfl, rfl, rfl, rfl, rfl, rfl, rfl, rfl, rfl, rfl,
          rfl, rfl, rfl⟩

/-- C3 counterexample: the claim says a guarded return clears the
pending lifetime of the actor; in the source `ReturnObjectToPool` never
touches the engine lifespan set by `SpawnPooledActor`, so after
initialize, spawn, return, the returned member still carries the
nonzero pending lifespan. -/
theorem c3_counterexample :
    (lookupActor (ReturnObjectToPool
        (SpawnPooledActor (InitializePool testState true 1) ⟨1, 2, 3⟩).2
        (some 0)).actors 0).map (fun p => p.lifeSpan) =
      some testState.actorLifespan ∧
    testState.actorLifespan ≠ 0 := by
  refine ⟨?_, by decide⟩
  decide

/-- C3 (amended): `ReturnObjectToPool` is a silent no-op unless the
caller has authority, the reference is non-null, and the actor is a
pool member; when the preconditions hold it flips the member to Dormant
(hidden, collision-disabled, tick-disabled, at world origin, movement
replication off), decrements `ActiveObjects`, recomputes
`InactiveObjects` as `|Pool| - ActiveObjects`, fires the
returned-observer, and the actor remains in `Pool` — but the engine
lifespan pending on the actor is left in place, not cleared. -/
theorem c3_amended :
    (∀ (s : PoolState) (a : Option Nat), s.hasAuthority = false →
      ReturnObjectToPool s a = s) ∧
    (∀ s : PoolState, ReturnObjectToPool s none = s) ∧
    (∀ (s : PoolState) (a : Nat), s.pool.contains a = false →
      ReturnObjectToPool s (some a) = s) ∧
    (∀ (s : PoolState) (a : Nat) (p : ActorProps),
      s.hasAuthority = true → s.pool.contains a = true →
      lookupActor s.actors a = some p →
      (ReturnObjectToPool s (some a)).activeObjects = s.activeObjects - 1 ∧
      (ReturnObjectToPool s (some a)).inactiveObjects =
        (s.pool.length : Int) - (s.activeObjects - 1) ∧
      (ReturnObjectToPool s (some a)).pool = s.pool ∧
      (ReturnObjectToPool s (some a)).returnedEvents =
        s.returnedEvents ++ [a] ∧
      (ReturnObjectToPool s (some a)).totalReturnRequests =
        s.totalReturnRequests + 1 ∧
      lookupActor (ReturnObjectToPool s (some a)).actors a =
        some (makeDormantProps p) ∧
      (makeDormantProps p).hiddenInGame = true ∧
      (makeDormantProps p).collisionEnabled = false ∧
      (makeDormantProps p).tickEnabled = false ∧
      (makeDormantProps p).location = zeroVec ∧
      (makeDormantProps p).replicateMovement = false ∧
      (makeDormantProps p).lifeSpan = p.lifeSpan) := by
  refine ⟨?_, ?_, ?_, ?_⟩
  · intro s a h
    unfold ReturnObjectToPool
    simp [h]
  · intro s
    unfold ReturnObjectToPool
    simp
  · intro s a h
    have h2 : ¬ a ∈ s.pool := by simpa using h
    unfold ReturnObjectToPool
    simp [h, h2]
  · intro s a p hauth hmem hlk
    have h := Return_effects s a p hauth hmem hlk
    exact ⟨h.1, h.2.1, h.2.2.1, h.2.2.2.1, h.2.2.2.2.1, h.2.2.2.2.2.1,
           rfl, rfl, rfl, rfl, rfl, rfl⟩

/-- Witness for C3 (amended) at the concrete one-member pool with an
Active member. -/
theorem c3_amended_witness :
    (ReturnObjectToPool
        (SpawnPooledActor (InitializePool testState true 1) ⟨1, 2, 3⟩).2
        (some 0)).activeObjects =
      (SpawnPooledActor (InitializePool testState true 1)
        ⟨1, 2, 3⟩).2.activeObjects - 1 ∧
    ReturnObjectToPool { testState with hasAuthority := false } (some 0) =
      { testState with hasAuthority := false } := by
  refine ⟨?_, c3_amended.1 { testState with hasAuthority := false }
            (some 0) (by decide)⟩
  exact (c3_amended.2.2.2
    (SpawnPooledActor (InitializePool testState true 1) ⟨1, 2, 3⟩).2 0
    ⟨false, true, true, ⟨1, 2, 3⟩, true, true, 5, true⟩
    (by decide) (by decide) (by decide)).1

/-- C4 counterexample: return is not idempotent.  On a one-member pool
whose member is Active, a second `ReturnObjectToPool` of the same member
passes the guard again (only membership is checked, not the member
state): it decrements `ActiveObjects` to `-1` and fires the
returned-observer a second time, so the double-return state differs from
the single-return state. -/
theorem c4_counterexample :
    ReturnObjectToPool (ReturnObjectToPool
        (SpawnPooledActor (InitializePool testState true 1) ⟨1, 2, 3⟩).2
        (some 0)) (some 0) ≠
      ReturnObjectToPool
        (SpawnPooledActor (InitializePool testState true 1) ⟨1, 2, 3⟩).2
        (some 0) ∧
    (ReturnObjectToPool (ReturnObjectToPool
        (SpawnPooledActor (InitializePool testState true 1) ⟨1, 2, 3⟩).2
        (some 0)) (some 0)).activeObjects = -1 ∧
    (ReturnObjectToPool
        (SpawnPooledActor (InitializePool testState true 1) ⟨1, 2, 3⟩).2
        (some 0)).activeObjects = 0 ∧
    (ReturnObjectToPool (ReturnObjectToPool
        (SpawnPooledActor (InitializePool testState true 1) ⟨1, 2, 3⟩).2
        (some 0)) (some 0)).returnedEvents = [0, 0] := by
  refine ⟨?_, by decide, by decide, by decide⟩
  decide

/-- C4 (amended): executing `ReturnObjectToPool` twice on the same pool
member is observably different from executing it once — the member stays
in `Pool`, so the second call passes the guard and decrements
`ActiveObjects` again, recomputes `InactiveObjects`, fires the
returned-observer again, and increments `TotalReturnRequests` again. -/
theorem c4_amended (s : PoolState) (a : Nat) (p : ActorProps)
    (hauth : s.hasAuthority = true) (hmem : s.pool.contains a = true)
    (hlk : lookupActor s.actors a = some p) :
    (ReturnObjectToPool (ReturnObjectToPool s (some a))
        (some a)).activeObjects = s.activeObjects - 2 ∧
    (ReturnObjectToPool (ReturnObjectToPool s (some a))
        (some a)).totalReturnRequests = s.totalReturnRequests + 2 ∧
    (ReturnObjectToPool (ReturnObjectToPool s (some a))
        (some a)).returnedEvents = s.returnedEvents ++ [a] ++ [a] ∧
    ReturnObjectToPool (ReturnObjectToPool s (some a)) (some a) ≠
      ReturnObjectToPool s (some a) := by
  have h1 := Return_effects s a p hauth hmem hlk
  have hauth1 : (ReturnObjectToPool s (some a)).hasAuthority = true :=
    h1.2.2.2.2.2.2.1.trans hauth
  have hmem1 : (ReturnObjectToPool s (some a)).pool.contains a = true := by
    rw [h1.2.2.1]; exact hmem
  have h2 := Return_effects (ReturnObjectToPool s (some a)) a
    (makeDormantProps p) hauth1 hmem1 h1.2.2.2.2.2.1
  refine ⟨?_, ?_, ?_, ?_⟩
  · rw [h2.1, h1.1]; omega
  · rw [h2.2.2.2.2.1, h1.2.2.2.2.1]; omega
  · rw [h2.2.2.2.1, h1.2.2.2.1]
  · intro hcontra
    have := h2.1
    rw [hcontra, h1.1] at this
    omega

/-- Witness for C4 (amended) at the concrete one-member Active pool. -/
theorem c4_amended_witness :
    (ReturnObjectToPool (ReturnObjectToPool
        (SpawnPooledActor (InitializePool testState true 1) ⟨1, 2, 3⟩).2
        (some 0)) (some 0)).activeObjects =
      (SpawnPooledActor (InitializePool testState true 1)
        ⟨1, 2, 3⟩).2.activeObjects - 2 :=
  (c4_amended (SpawnPooledActor (InitializePool testState true 1)
      ⟨1, 2, 3⟩).2 0
    ⟨false, true, true, ⟨1, 2, 3⟩, true, true, 5, true⟩
    (by decide) (by decide) (by decide)).1

/-- C5 counterexample: with an empty pool and auto-expansion enabled
(authority, valid world, class set, spawn succeeding), `GetPooledObject`
returns null and does not grow the pool — contradicting the claim that
the empty-pool case also auto-expands by one. -/
theorem c5_counterexample :
    GetPooledObject { testState with bAutoExpand := true } =
      (none, { testState with bAutoExpand := true }) ∧
    ({ testState with bAutoExpand := true } : PoolState).bAutoExpand
      = true ∧
    ({ testState with bAutoExpand := true } : PoolState).pool = [] := by
  refine ⟨?_, by decide, by decide⟩
  decide

/-- C5 (amended): `GetPooledObject` returns null immediately when the
pool is empty, even when auto-expansion is enabled; on a nonempty pool
it scans `Pool` linearly from the start and returns the first live
member in Dormant (hidden) state — earliest by insertion order; if no
such member exists, auto-expansion is enabled and the expansion
succeeds, it grows the pool by exactly one and returns the newly
appended member, which is Dormant at creation. -/
theorem c5_amended :
    (∀ s : PoolState, s.pool = [] → GetPooledObject s = (none, s)) ∧
    (∀ (s : PoolState) (a : Nat),
      findFirstDormant s.actors s.pool = some a →
      (GetPooledObject s).1 = some a ∧
      ∃ l1 l2, s.pool = l1 ++ a :: l2 ∧
        (∀ b ∈ l1, ∀ p, lookupActor s.actors b = some p →
          p.hiddenInGame = false) ∧
        ∃ p, lookupActor s.actors a = some p ∧ p.hiddenInGame = true) ∧
    (∀ s : PoolState,
      findFirstDormant s.actors s.pool = none → s.pool ≠ [] →
      s.bAutoExpand = true → s.hasAuthority = true → s.worldValid = true →
      s.pooledObjectClassSet = true → s.spawnSucceeds = true →
      (GetPooledObject s).1 = some s.nextId ∧
      (GetPooledObject s).2.pool = s.pool ++ [s.nextId] ∧
      isHiddenActor (GetPooledObject s).2 s.nextId = true) := by
  refine ⟨?_, ?_, ?_⟩
  · intro s h
    simp [GetPooledObject, h]
  · intro s a hfd
    have heq := GetPooledObject_dormant_eq s a hfd
    rw [heq]
    exact ⟨rfl, findFirstDormant_some _ _ _ hfd⟩
  · intro s hnd hne hae hauth hw hc hsp
    have hex := ExpandPool_success s hauth hw hc hsp
    have hlen : ¬s.pool.length = 0 := by
      cases hpool : s.pool with
      | nil => exact absurd hpool hne
      | cons b rest => simp [hpool]
    have hget : GetPooledObject s =
        ((ExpandPool s).pool.getLast?, ExpandPool s) := by
      unfold GetPooledObject
      rw [if_neg hlen, hnd]
      simp [hae]
    rw [hget]
    refine ⟨?_, hex.1, ?_⟩
    · show (ExpandPool s).pool.getLast? = some s.nextId
      rw [hex.1, getLast?_append_singleton]
    · show isHiddenActor (ExpandPool s) s.nextId = true
      unfold isHiddenActor
      rw [hex.2.1]

/-- Witness for C5 (amended): the empty-pool case, the scan case on a
freshly initialized one-member pool, and the successful auto-expansion
case on a one-member all-Active pool. -/
theorem c5_amended_witness :
    GetPooledObject { testState with pool := [] } =
      (none, { testState with pool := [] }) ∧
    (GetPooledObject (InitializePool testState true 1)).1 = some 0 ∧
    (GetPooledObject
        { (SpawnPooledActor (InitializePool testState true 1)
            ⟨1, 2, 3⟩).2 with bAutoExpand := true }).1 = some 1 := by
  refine ⟨c5_amended.1 { testState with pool := [] } rfl, ?_, ?_⟩
  · exact (c5_amended.2.1 (InitializePool testState true 1) 0 (by decide)).1
  · exact (c5_amended.2.2
      { (SpawnPooledActor (InitializePool testState true 1)
          ⟨1, 2, 3⟩).2 with bAutoExpand := true }
      (by decide) (by decide) rfl rfl rfl rfl rfl).1

/-- C7: evaluation of `InitializePoolAsync` at the failing inputs.  With
an unresolved class handle the call requests no asynchronous load,
enqueues nothing, and fires no event (the async-load branch of the
source is unreachable: the function returns at the `IsValid` guard).
With a resolved class it enqueues `InitialPoolSize` tasks — the property
defaulting from the editor, here 2 — ignoring its `InitialSize` argument
of 3, and multicasts the pool-initialized event once. -/
theorem c7_code_behavior :
    (InitializePoolAsync { testState with pooledObjectClassSet := false }
        3).pendingClassLoad = false ∧
    (InitializePoolAsync { testState with pooledObjectClassSet := false }
        3).pendingAsync = [] ∧
    (InitializePoolAsync { testState with pooledObjectClassSet := false }
        3).initializedEvents = 0 ∧
    (InitializePoolAsync testState 3).pendingAsync.length =
      testState.initialPoolSize ∧
    testState.initialPoolSize = 2 ∧
    (InitializePoolAsync testState 3).initializedEvents = 1 ∧
    InitializePoolAsync testState 3 = InitializePoolAsync testState 7 := by
  refine ⟨by decide, by decide, by decide, ?_, by decide, by decide, ?_⟩
  · decide
  · decide

/-- C8 counterexample: after `InitializePool(1)` and a successful spawn,
the world destroys the Active member: the release path runs
(`ActiveObjects` back to 0) but the destroyed reference is NOT dropped
from `Pool` — the membership check still succeeds against the dangling
reference. -/
theorem c8_counterexample :
    (destroyActorFromWorld
        (SpawnPooledActor (InitializePool testState true 1) ⟨1, 2, 3⟩).2
        0).pool.contains 0 = true ∧
    isValidActor (destroyActorFromWorld
        (SpawnPooledActor (InitializePool testState true 1) ⟨1, 2, 3⟩).2
        0) 0 = false ∧
    (destroyActorFromWorld
        (SpawnPooledActor (InitializePool testState true 1) ⟨1, 2, 3⟩).2
        0).activeObjects = 0 := by
  refine ⟨by decide, ?_, by decide⟩
  decide

/-- C8 (amended): when the world destroys a live Active pool member
whose destruction notification is bound, the destruction routes through
the release path — `ActiveObjects` decrements and the returned-observer
fires — but the destroyed reference is NOT dropped from `Pool`: the
pool keeps a dangling entry on which the membership check still
succeeds, while the live-actor lookup no longer does. -/
theorem c8_amended (s : PoolState) (a : Nat) (p : ActorProps)
    (hlk : lookupActor s.actors a = some p) (hb : p.onDestroyedBound = true)
    (hauth : s.hasAuthority = true) (hmem : s.pool.contains a = true) :
    (destroyActorFromWorld s a).activeObjects = s.activeObjects - 1 ∧
    (destroyActorFromWorld s a).pool = s.pool ∧
    (destroyActorFromWorld s a).pool.contains a = true ∧
    isValidActor (destroyActorFromWorld s a) a = false ∧
    (destroyActorFromWorld s a).returnedEvents =
      s.returnedEvents ++ [a] := by
  have hvalid : isValidActor s a = true := by
    unfold isValidActor
    rw [hlk]
    rfl
  have hret := Return_effects s a p hauth hmem hlk
  have hH : HandleDestroyedActor s a = ReturnObjectToPool s (some a) := by
    unfold HandleDestroyedActor
    rw [if_pos]
    rw [hvalid, hmem]
    rfl
  have hd : destroyActorFromWorld s a =
      { ReturnObjectToPool s (some a) with
        actors := (ReturnObjectToPool s (some a)).actors.filter
          (fun q => q.1 != a) } := by
    unfold destroyActorFromWorld
    rw [hlk]
    simp [hb, hH]
  rw [hd]
  refine ⟨hret.1, hret.2.2.1, ?_, ?_, hret.2.2.2.1⟩
  · show (ReturnObjectToPool s (some a)).pool.contains a = true
    rw [hret.2.2.1]
    exact hmem
  · show ((lookupActor ((ReturnObjectToPool s (some a)).actors.filter
      (fun q => q.1 != a)) a).isSome) = false
    rw [lookupActor_filter_self]
    rfl

/-- Witness for C8 (amended) at the concrete one-member Active pool. -/
theorem c8_amended_witness :
    (destroyActorFromWorld
        (SpawnPooledActor (InitializePool testState true 1) ⟨1, 2, 3⟩).2
        0).returnedEvents =
      (SpawnPooledActor (InitializePool testState true 1)
        ⟨1, 2, 3⟩).2.returnedEvents ++ [0] ∧
    (destroyActorFromWorld
        (SpawnPooledActor (InitializePool testState true 1) ⟨1, 2, 3⟩).2
        0).activeObjects =
      (SpawnPooledActor (InitializePool testState true 1)
        ⟨1, 2, 3⟩).2.activeObjects - 1 := by
  have h := c8_amended
    (SpawnPooledActor (InitializePool testState true 1) ⟨1, 2, 3⟩).2 0
    ⟨false, true, true, ⟨1, 2, 3⟩, true, true, 5, true⟩
    (by decide) (by decide) (by decide) (by decide)
  exact ⟨h.2.2.2.2, h.1⟩

end DynamicObjectPooler
